import Mathlib

/-!
Verification development for the Teeny Tiny compiler
(`lex.py`, `parse.py`, `teenytiny.py`).

Python strings are embedded as `List Char`; the fallible operations
(which call `sys.exit` with a message in the Python code) are embedded as
`Except (List Char) _` values carrying the abort message.  The unbounded
`while` loops of the lexer and the recursive-descent parser are embedded
as fuel-indexed recursive functions; running out of fuel produces a
distinguished "Out of fuel." error that the Python code never produces,
and all theorems are either conditional on a successful (`Except.ok`)
result or evaluated at concrete inputs with adequate fuel.
-/

set_option maxRecDepth 20000

set_option maxHeartbeats 1600000

/-! ## Token model (`lex.py`, `TokenType` and `Token`) -/

/-- The `TokenType` enum of `lex.py`, constructors in Python declaration
order. -/
inductive TokenType
  | EOF
  | NEWLINE
  | NUMBER
  | IDENT
  | STRING
  | LABEL
  | GOTO
  | PRINT
  | INPUT
  | LET
  | IF
  | THEN
  | ENDIF
  | WHILE
  | REPEAT
  | ENDWHILE
  | EQ
  | PLUS
  | MINUS
  | ASTERISK
  | SLASH
  | EQEQ
  | NOTEQ
  | LT
  | LTEQ
  | GT
  | GTEQ

deriving DecidableEq, Repr

/-- The numeric `value` assigned to each enum member in `lex.py`. -/
def TokenType.value : TokenType → Int
  | .EOF => -1
  | .NEWLINE => 0
  | .NUMBER => 1
  | .IDENT => 2
  | .STRING => 3
  | .LABEL => 101
  | .GOTO => 102
  | .PRINT => 103
  | .INPUT => 104
  | .LET => 105
  | .IF => 106
  | .THEN => 107
  | .ENDIF => 108
  | .WHILE => 109
  | .REPEAT => 110
  | .ENDWHILE => 111
  | .EQ => 201
  | .PLUS => 202
  | .MINUS => 203
  | .ASTERISK => 204
  | .SLASH => 205
  | .EQEQ => 206
  | .NOTEQ => 207
  | .LT => 208
  | .LTEQ => 209
  | .GT => 210
  | .GTEQ => 211

/-- The `name` of each enum member (the Python identifier it was declared
with), as used by `Token.mapTextToKeywordType` and in parser error
messages. -/
def TokenType.name : TokenType → List Char
  | .EOF => "EOF".toList
  | .NEWLINE => "NEWLINE".toList
  | .NUMBER => "NUMBER".toList
  | .IDENT => "IDENT".toList
  | .STRING => "STRING".toList
  | .LABEL => "LABEL".toList
  | .GOTO => "GOTO".toList
  | .PRINT => "PRINT".toList
  | .INPUT => "INPUT".toList
  | .LET => "LET".toList
  | .IF => "IF".toList
  | .THEN => "THEN".toList
  | .ENDIF => "ENDIF".toList
  | .WHILE => "WHILE".toList
  | .REPEAT => "REPEAT".toList
  | .ENDWHILE => "ENDWHILE".toList
  | .EQ => "EQ".toList
  | .PLUS => "PLUS".toList
  | .MINUS => "MINUS".toList
  | .ASTERISK => "ASTERISK".toList
  | .SLASH => "SLASH".toList
  | .EQEQ => "EQEQ".toList
  | .NOTEQ => "NOTEQ".toList
  | .LT => "LT".toList
  | .LTEQ => "LTEQ".toList
  | .GT => "GT".toList
  | .GTEQ => "GTEQ".toList

/-- The iteration order `for kind in TokenType` of `lex.py`: Python
declaration order. -/
def TokenType.members : List TokenType :=
  [.EOF, .NEWLINE, .NUMBER, .IDENT, .STRING,
   .LABEL, .GOTO, .PRINT, .INPUT, .LET, .IF, .THEN, .ENDIF, .WHILE,
   .REPEAT, .ENDWHILE,
   .EQ, .PLUS, .MINUS, .ASTERISK, .SLASH, .EQEQ, .NOTEQ, .LT, .LTEQ,
   .GT, .GTEQ]

/-- Propagate an abort, otherwise continue: the sequencing of fallible
steps (in Python, an abort simply exits the process). -/
def ebind {α β : Type} (b : Except (List Char) α)
    (g : α → Except (List Char) β) : Except (List Char) β :=
  match b with
  | .error e => .error e
  | .ok x => g x

/-- The `Token` dataclass of `lex.py`: lexeme text paired with its kind. -/
structure Token where
  text : List Char
  kind : TokenType

deriving DecidableEq, Repr

/-- `Token.mapTextToKeywordType` from `lex.py`: scan all enum members and
return the first whose name equals the text and whose value lies in the
reserved keyword band `[100, 200)`; otherwise `none`. -/
def mapTextToKeywordType (tokenText : List Char) : Option TokenType :=
  TokenType.members.find? fun kind =>
    decide (kind.name = tokenText) && decide (100 ≤ kind.value) &&
      decide (kind.value < 200)

/-! ## Lexer (`lex.py`, class `Lexer`) -/

/-- `Lexer.EOF`: the `'\0'` sentinel character. -/
def eofChar : Char := '\x00'

/-- Membership in `Lexer.WHITESPACE` (space, tab, carriage return). -/
def isWhitespaceChar (c : Char) : Bool :=
  c == ' ' || c == '\t' || c == '\r'

/-- The mutable scanner state of class `Lexer`: source buffer (with the
trailing newline already appended), current position, current character. -/
structure LexerState where
  source : List Char
  curPos : Nat
  curChar : Char

deriving DecidableEq, Repr

/-- Indexing with the out-of-range sentinel: `source[i]` if `i` is in
range, else the `'\0'` end-of-input sentinel (as in `Lexer.skipCurChar`
and `Lexer.peek`). -/
def charAt (s : List Char) (i : Nat) : Char := s.getD i eofChar

/-- The `Lexer.__init__` constructor: append a newline to the source,
start at position 0 (the Python code starts at `-1` and immediately calls
`skipCurChar`, which is the same state). -/
def mkLexer (src : List Char) : LexerState :=
  let source := src ++ ['\n']
  { source := source, curPos := 0, curChar := charAt source 0 }

/-- `Lexer.skipCurChar`: advance the position and refresh the current
character (sentinel once past the end). -/
def skipCurChar (st : LexerState) : LexerState :=
  { st with curPos := st.curPos + 1, curChar := charAt st.source (st.curPos + 1) }

/-- `Lexer.peek`: the lookahead character at `curPos + 1`, or the
sentinel past the end; the state is untouched. -/
def peek (st : LexerState) : Char := charAt st.source (st.curPos + 1)

/-- Well-formedness of a lexer state: the cached current character agrees
with the buffer at the current position.  Established by `mkLexer` and
preserved by every operation. -/
def WFlex (st : LexerState) : Prop :=
  st.curChar = charAt st.source st.curPos

/-- `Lexer.abort` prefixes its message with "Lexing error. ". -/
def lexErr (msg : List Char) : List Char := "Lexing error. ".toList ++ msg

/-- The loop of `Lexer.skipWhitespace`, fuel-indexed. -/
def skipWhitespaceGo : Nat → LexerState → LexerState
  | 0, st => st
  | fuel + 1, st =>
    if isWhitespaceChar st.curChar then skipWhitespaceGo fuel (skipCurChar st)
    else st

/-- `Lexer.skipWhitespace` (the fuel `length + 1` always suffices for
well-formed states). -/
def skipWhitespace (st : LexerState) : LexerState :=
  skipWhitespaceGo (st.source.length + 1) st

/-- The loop of `Lexer.skipComment`, fuel-indexed. -/
def skipCommentGo : Nat → LexerState → LexerState
  | 0, st => st
  | fuel + 1, st =>
    if st.curChar ≠ '\n' then skipCommentGo fuel (skipCurChar st)
    else st

/-- `Lexer.skipComment`. -/
def skipComment (st : LexerState) : LexerState :=
  if st.curChar = '#' then skipCommentGo (st.source.length + 1) st else st

/-- The digit-consuming loop `while self.peek().isdigit(): self.skipCurChar()`
of the number branch of `Lexer.getToken`, fuel-indexed. -/
def scanDigitsGo : Nat → LexerState → LexerState
  | 0, st => st
  | fuel + 1, st =>
    if (peek st).isDigit then scanDigitsGo fuel (skipCurChar st)
    else st

/-- The digit-consuming loop with its always-adequate fuel. -/
def scanDigits (st : LexerState) : LexerState :=
  scanDigitsGo (st.source.length + 1) st

/-- The alphanumeric-consuming loop of the identifier/keyword branch of
`Lexer.getToken`, fuel-indexed. -/
def scanAlnumGo : Nat → LexerState → LexerState
  | 0, st => st
  | fuel + 1, st =>
    if (peek st).isAlphanum then scanAlnumGo fuel (skipCurChar st)
    else st

/-- The alphanumeric-consuming loop with its always-adequate fuel. -/
def scanAlnum (st : LexerState) : LexerState :=
  scanAlnumGo (st.source.length + 1) st

/-- The string-literal loop of `Lexer.getToken`: run until the closing
double quote, aborting on the characters disallowed inside a literal. -/
def scanStringGo : Nat → LexerState → Except (List Char) LexerState
  | 0, _ => .error (lexErr "Out of fuel.".toList)
  | fuel + 1, st =>
    if st.curChar = '"' then .ok st
    else if st.curChar = '\r' ∨ st.curChar = '\n' ∨ st.curChar = '\t' ∨
        st.curChar = '\\' ∨ st.curChar = '%' then
      .error (lexErr "Illegal character in string.".toList)
    else scanStringGo fuel (skipCurChar st)

/-- The Python slice `s[a:b]`. -/
def sliceL (s : List Char) (a b : Nat) : List Char := (s.drop a).take (b - a)

/-- The shape of a numeric literal: a nonempty run of digits, optionally
followed by one decimal point and a nonempty run of digits. -/
def isNumLit (cs : List Char) : Bool :=
  (decide (cs.takeWhile Char.isDigit ≠ [])) &&
    (match cs.drop (cs.takeWhile Char.isDigit).length with
     | [] => true
     | c :: rest => c == '.' && decide (rest ≠ []) && rest.all Char.isDigit)

/-- The classification chain of `Lexer.getToken` (everything between the
whitespace/comment skipping and the final `skipCurChar`), in the Python
branch order. -/
def getTokenBody (st : LexerState) : Except (List Char) (Token × LexerState) :=
  if st.curChar = '+' then .ok (⟨[st.curChar], .PLUS⟩, st)
  else if st.curChar = '-' then .ok (⟨[st.curChar], .MINUS⟩, st)
  else if st.curChar = '*' then .ok (⟨[st.curChar], .ASTERISK⟩, st)
  else if st.curChar = '/' then .ok (⟨[st.curChar], .SLASH⟩, st)
  else if st.curChar = '\n' then .ok (⟨[st.curChar], .NEWLINE⟩, st)
  else if st.curChar = eofChar then .ok (⟨[st.curChar], .EOF⟩, st)
  else if st.curChar = '=' then
    if peek st = '=' then
      let st2 := skipCurChar st
      .ok (⟨[st.curChar, st2.curChar], .EQEQ⟩, st2)
    else .ok (⟨[st.curChar], .EQ⟩, st)
  else if st.curChar = '>' then
    if peek st = '=' then
      let st2 := skipCurChar st
      .ok (⟨[st.curChar, st2.curChar], .GTEQ⟩, st2)
    else .ok (⟨[st.curChar], .GT⟩, st)
  else if st.curChar = '<' then
    if peek st = '=' then
      let st2 := skipCurChar st
      .ok (⟨[st.curChar, st2.curChar], .LTEQ⟩, st2)
    else .ok (⟨[st.curChar], .LT⟩, st)
  else if st.curChar = '!' then
    if peek st = '=' then
      let st2 := skipCurChar st
      .ok (⟨[st.curChar, st2.curChar], .NOTEQ⟩, st2)
    else .error (lexErr ("Expected !=, got !".toList ++ [peek st]))
  else if st.curChar = '"' then
    let st1 := skipCurChar st
    ebind (scanStringGo (st1.source.length + 1) st1) fun stE =>
      .ok (⟨sliceL stE.source st1.curPos stE.curPos, .STRING⟩, stE)
  else if st.curChar.isDigit then
    let r1 := scanDigits st
    if peek r1 = '.' then
      let r2 := skipCurChar r1
      if !(peek r2).isDigit then
        .error (lexErr "Illegal character in number.".toList)
      else
        let r3 := scanDigits r2
        .ok (⟨sliceL r3.source st.curPos (r3.curPos + 1), .NUMBER⟩, r3)
    else .ok (⟨sliceL r1.source st.curPos (r1.curPos + 1), .NUMBER⟩, r1)
  else if st.curChar.isAlpha then
    match mapTextToKeywordType
        (sliceL (scanAlnum st).source st.curPos ((scanAlnum st).curPos + 1)) with
    | none =>
      .ok (⟨sliceL (scanAlnum st).source st.curPos ((scanAlnum st).curPos + 1),
        .IDENT⟩, scanAlnum st)
    | some k =>
      .ok (⟨sliceL (scanAlnum st).source st.curPos ((scanAlnum st).curPos + 1),
        k⟩, scanAlnum st)
  else .error (lexErr ("Unknow token: ".toList ++ [st.curChar]))

/-- `Lexer.getToken`: skip whitespace and comments, classify one token,
then advance past it. -/
def getToken (st0 : LexerState) : Except (List Char) (Token × LexerState) :=
  let st := skipComment (skipWhitespace st0)
  ebind (getTokenBody st) fun r => .ok (r.1, skipCurChar r.2)

/-- Repeatedly pull tokens from the lexer until (and including) the first
end-of-input token, as the parser's caller-driven pull does. -/
def tokenizeGo : Nat → LexerState → Except (List Char) (List Token)
  | 0, _ => .error (lexErr "Out of fuel.".toList)
  | fuel + 1, st =>
    ebind (getToken st) fun r =>
      if r.1.kind = .EOF then .ok [r.1]
      else ebind (tokenizeGo fuel r.2) fun ts => .ok (r.1 :: ts)

/-- The whole token stream of a source text (each `getToken` call
strictly advances the position, so the fuel suffices). -/
def tokenize (src : List Char) : Except (List Char) (List Token) :=
  tokenizeGo (src.length + 4) (mkLexer src)

/-! ## Emitter

Modelled from the spec: `emit.py` (class `Emitter`) is imported by
`parse.py` and `teenytiny.py` but is not among the available source
files.  Per the spec (section 4.4) it is a pure ordered-text accumulator
with two buffers: `emit(text)` appends to the tail of the body without
terminating the line, `emitLine(text)` appends and terminates the line,
`headerLine(text)` appends a complete line to the header buffer, and the
final flush writes the header followed by the body to the configured
destination exactly once. -/

/-- Modelled from the spec: the Emitter state of the missing `emit.py` —
an output destination identifier plus the header and body buffers. -/
structure Emitter where
  fullPath : List Char
  header : List (List Char)
  code : List Char

deriving DecidableEq, Repr

/-- Modelled from the spec: `Emitter.emit` appends text to the body
without terminating the line. -/
def Emitter.emit (e : Emitter) (t : List Char) : Emitter :=
  { e with code := e.code ++ t }

/-- Modelled from the spec: `Emitter.emitLine` appends text to the body
and terminates the line. -/
def Emitter.emitLine (e : Emitter) (t : List Char) : Emitter :=
  { e with code := e.code ++ t ++ ['\n'] }

/-- Modelled from the spec: `Emitter.headerLine` appends one complete
line to the header buffer. -/
def Emitter.headerLine (e : Emitter) (t : List Char) : Emitter :=
  { e with header := e.header ++ [t] }

/-- Modelled from the spec: the text persisted by the final
`Emitter.writeFile` — header lines first, then the body. -/
def writeFileContent (e : Emitter) : List Char :=
  (e.header.map (fun l => l ++ ['\n'])).flatten ++ e.code

/-! ## Parser (`parse.py`, class `Parser`)

The parser pulls tokens on demand; here the already-produced token stream
is a list, padded with end-of-input tokens once exhausted (matching the
lexer, which keeps returning end-of-input tokens forever once past the
buffer). -/

/-- `Parser.abort` prefixes its message with "Error. ". -/
def parseErr (msg : List Char) : List Char := "Error. ".toList ++ msg

/-- The token the exhausted stream keeps yielding (`Lexer.getToken` on a
consumed buffer). -/
def eofToken : Token := ⟨[eofChar], .EOF⟩

/-- The parser state: current token, one-token lookahead, the not yet
pulled remainder of the stream, the three bookkeeping sets of `parse.py`
(as lists without duplicates), and the emitter. -/
structure PState where
  curToken : Token
  peekToken : Token
  rest : List Token
  symbolsDeclared : List (List Char)
  labelsDeclared : List (List Char)
  labelsGotoed : List (List Char)
  emitter : Emitter

deriving DecidableEq, Repr

/-- Pull one token from the stream (end-of-input once exhausted). -/
def nextTok : List Token → Token × List Token
  | [] => (eofToken, [])
  | t :: ts => (t, ts)

/-- `Parser.skipCurToken` with no required type: advance current and
lookahead together. -/
def skipTok (st : PState) : PState :=
  { st with
    curToken := st.peekToken
    peekToken := (nextTok st.rest).1
    rest := (nextTok st.rest).2 }

/-- `Parser.skipCurToken` with a required type: abort unless the current
token has that type, then advance. -/
def skipTokReq (k : TokenType) (st : PState) : Except (List Char) PState :=
  if st.curToken.kind = k then .ok (skipTok st)
  else .error (parseErr ("Expected ".toList ++ k.name ++ ", got ".toList ++
    st.curToken.kind.name))

/-- `self.emitter.emit(...)` lifted to the parser state. -/
def pemit (st : PState) (t : List Char) : PState :=
  { st with emitter := st.emitter.emit t }

/-- `self.emitter.emitLine(...)` lifted to the parser state. -/
def pemitLine (st : PState) (t : List Char) : PState :=
  { st with emitter := st.emitter.emitLine t }

/-- `self.emitter.headerLine(...)` lifted to the parser state. -/
def pheaderLine (st : PState) (t : List Char) : PState :=
  { st with emitter := st.emitter.headerLine t }

/-- `Parser.curTokenIsComparisonOperator`. -/
def isComparisonOp (k : TokenType) : Bool :=
  k == .GT || k == .GTEQ || k == .LT || k == .LTEQ || k == .EQEQ || k == .NOTEQ

/-- Python `set.add`: insert a name if not already present. -/
def insertSet (x : List Char) (l : List (List Char)) : List (List Char) :=
  if x ∈ l then l else x :: l

/-- The fuel-exhaustion error of the fueled parser functions (never
produced by the Python code). -/
def fuelErr : List Char := parseErr "Out of fuel.".toList

/-- `Parser.primary`: a number or an already-declared identifier, emitted
verbatim. -/
def primaryF (st : PState) : Except (List Char) PState :=
  if st.curToken.kind = .NUMBER then
    .ok (skipTok (pemit st st.curToken.text))
  else if st.curToken.kind = .IDENT then
    if st.curToken.text ∈ st.symbolsDeclared then
      .ok (skipTok (pemit st st.curToken.text))
    else
      .error (parseErr ("Referencing variable before assignment: ".toList ++
        st.curToken.text))
  else .error (parseErr ("Unexpected token at ".toList ++ st.curToken.text))

/-- `Parser.unary`: optional `+`/`-` sign, then a primary. -/
def unaryF (st : PState) : Except (List Char) PState :=
  if st.curToken.kind = .PLUS ∨ st.curToken.kind = .MINUS then
    primaryF (skipTok (pemit st st.curToken.text))
  else primaryF st

/-- The `*`/`/` loop of `Parser.term`. -/
def termLoopF : Nat → PState → Except (List Char) PState
  | 0, _ => .error fuelErr
  | fuel + 1, st =>
    if st.curToken.kind = .ASTERISK ∨ st.curToken.kind = .SLASH then
      ebind (unaryF (skipTok (pemit st st.curToken.text))) fun st1 =>
        termLoopF fuel st1
    else .ok st

/-- `Parser.term`. -/
def termF (fuel : Nat) (st : PState) : Except (List Char) PState :=
  ebind (unaryF st) fun st1 => termLoopF fuel st1

/-- The `+`/`-` loop of `Parser.expression`. -/
def exprLoopF : Nat → PState → Except (List Char) PState
  | 0, _ => .error fuelErr
  | fuel + 1, st =>
    if st.curToken.kind = .PLUS ∨ st.curToken.kind = .MINUS then
      ebind (termF fuel (skipTok (pemit st st.curToken.text))) fun st1 =>
        exprLoopF fuel st1
    else .ok st

/-- `Parser.expression`. -/
def expressionF (fuel : Nat) (st : PState) : Except (List Char) PState :=
  ebind (termF fuel st) fun st1 => exprLoopF fuel st1

/-- The trailing `(cmpOp expression)*` loop of `Parser.comparison`. -/
def compLoopF : Nat → PState → Except (List Char) PState
  | 0, _ => .error fuelErr
  | fuel + 1, st =>
    if isComparisonOp st.curToken.kind then
      ebind (expressionF fuel (skipTok (pemit st st.curToken.text))) fun st1 =>
        compLoopF fuel st1
    else .ok st

/-- `Parser.comparison`: one expression, then a mandatory comparison
operator and expression, then zero or more further pairs. -/
def comparisonF (fuel : Nat) (st : PState) : Except (List Char) PState :=
  ebind (expressionF fuel st) fun st1 =>
    if isComparisonOp st1.curToken.kind then
      ebind (expressionF fuel (skipTok (pemit st1 st1.curToken.text))) fun st2 =>
        compLoopF fuel st2
    else
      .error (parseErr ("Expected comparison operator at: ".toList ++
        st1.curToken.text))

/-- The `while NEWLINE` skipping loop shared by `Parser.nl` and
`Parser.program`. -/
def skipNewlinesF : Nat → PState → PState
  | 0, st => st
  | fuel + 1, st =>
    if st.curToken.kind = .NEWLINE then skipNewlinesF fuel (skipTok st)
    else st

/-- `Parser.nl`: require one newline, then swallow any extras. -/
def nlF (fuel : Nat) (st : PState) : Except (List Char) PState :=
  ebind (skipTokReq .NEWLINE st) fun st1 => .ok (skipNewlinesF fuel st1)

mutual

/-- `Parser.statement`: recognize one statement form and emit its target
code, then consume the trailing newline(s). -/
def statementF : Nat → PState → Except (List Char) PState
  | 0, _ => .error fuelErr
  | fuel + 1, st =>
    ebind
      (if st.curToken.kind = .PRINT then
        if (skipTok st).curToken.kind = .STRING then
          .ok (skipTok (pemitLine (skipTok st)
            ("printf(\"".toList ++ (skipTok st).curToken.text ++ "\\n\");".toList)))
        else
          ebind (expressionF fuel
              (pemit (skipTok st) "printf(\"%.2f\\n\", (float)(".toList)) fun st2 =>
            .ok (pemitLine st2 "));".toList)
      else if st.curToken.kind = .IF then
        ebind (comparisonF fuel (pemit (skipTok st) "if(".toList)) fun st2 =>
        ebind (skipTokReq .THEN st2) fun st3 =>
        ebind (nlF fuel st3) fun st4 =>
        ebind (stmtLoopUntilF fuel .ENDIF (pemitLine st4 ")\x7b".toList)) fun st5 =>
        ebind (skipTokReq .ENDIF st5) fun st6 =>
          .ok (pemitLine st6 "\x7d".toList)
      else if st.curToken.kind = .WHILE then
        ebind (comparisonF fuel (pemit (skipTok st) "while(".toList)) fun st2 =>
        ebind (skipTokReq .REPEAT st2) fun st3 =>
        ebind (nlF fuel st3) fun st4 =>
        ebind (stmtLoopUntilF fuel .ENDWHILE (pemitLine st4 ")\x7b".toList)) fun st5 =>
        ebind (skipTokReq .ENDWHILE st5) fun st6 =>
          .ok (pemitLine st6 "\x7d".toList)
      else if st.curToken.kind = .LABEL then
        if (skipTok st).curToken.text ∈ (skipTok st).labelsDeclared then
          .error (parseErr ("Label already exists: ".toList ++
            (skipTok st).curToken.text))
        else
          skipTokReq .IDENT (pemitLine
            { skipTok st with
                labelsDeclared :=
                  (skipTok st).curToken.text :: (skipTok st).labelsDeclared }
            ((skipTok st).curToken.text ++ ":".toList))
      else if st.curToken.kind = .GOTO then
        skipTokReq .IDENT (pemitLine
          { skipTok st with
              labelsGotoed :=
                insertSet (skipTok st).curToken.text (skipTok st).labelsGotoed }
          ("goto ".toList ++ (skipTok st).curToken.text ++ ";".toList))
      else if st.curToken.kind = .LET then
        ebind (skipTokReq .IDENT (pemit
            (if (skipTok st).curToken.text ∈ (skipTok st).symbolsDeclared then
              skipTok st
            else
              pheaderLine
                { skipTok st with
                    symbolsDeclared :=
                      (skipTok st).curToken.text :: (skipTok st).symbolsDeclared }
                ("float ".toList ++ (skipTok st).curToken.text ++ ";".toList))
            ((skipTok st).curToken.text ++ " = ".toList))) fun st3 =>
        ebind (skipTokReq .EQ st3) fun st4 =>
        ebind (expressionF fuel st4) fun st5 =>
          .ok (pemitLine st5 ";".toList)
      else if st.curToken.kind = .INPUT then
        skipTokReq .IDENT (pemitLine (pemitLine (pemit (pemitLine (pemitLine
          (if (skipTok st).curToken.text ∈ (skipTok st).symbolsDeclared then
            skipTok st
          else
            pheaderLine
              { skipTok st with
                  symbolsDeclared :=
                    (skipTok st).curToken.text :: (skipTok st).symbolsDeclared }
              ("float ".toList ++ (skipTok st).curToken.text ++ ";".toList))
          ("if(0 == scanf(\"%f\", &".toList ++ (skipTok st).curToken.text ++
            ")) \x7b".toList))
          ((skipTok st).curToken.text ++ " = 0;".toList))
          "scanf(\"%".toList)
          "*s\");".toList)
          "\x7d".toList)
      else
        .error (parseErr ("Invalid statement at ".toList ++ st.curToken.text ++
          " (".toList ++ st.curToken.kind.name ++ ")".toList)))
      fun stB => nlF fuel stB

/-- The `while not <closer>: statement` loops of `Parser.program` (closer
`EOF`), the `IF` body (closer `ENDIF`) and the `WHILE` body (closer
`ENDWHILE`). -/
def stmtLoopUntilF : Nat → TokenType → PState → Except (List Char) PState
  | 0, _, _ => .error fuelErr
  | fuel + 1, k, st =>
    if st.curToken.kind = k then .ok st
    else
      ebind (statementF fuel st) fun st1 => stmtLoopUntilF fuel k st1

end

/-- The deferred label check at the end of `Parser.program`: abort on the
first `GOTO`'ed label that was never declared. -/
def checkLabelsF (st : PState) : Except (List Char) PState :=
  match st.labelsGotoed.find? (fun l => decide (l ∉ st.labelsDeclared)) with
  | some l =>
    .error (parseErr ("Attempting to GOTO to undeclared label: ".toList ++ l))
  | none => .ok st

/-- `Parser.program`: emit the prologue into the header, skip leading
newlines, parse all statements, run the deferred label check, then emit
the epilogue. -/
def programF (fuel : Nat) (st0 : PState) : Except (List Char) PState :=
  ebind (stmtLoopUntilF fuel .EOF (skipNewlinesF fuel
    (pheaderLine (pheaderLine st0 "#include <stdio.h>".toList)
      "int main(void)\x7b".toList))) fun st3 =>
  ebind (checkLabelsF st3) fun st4 =>
    .ok (pemitLine (pemitLine st4 "return 0;".toList) "\x7d".toList)

/-- `Parser.__init__`: empty bookkeeping sets, and `skipCurToken` called
twice so that the current token is the first stream token and the
lookahead the second. -/
def initPState (toks : List Token) : PState :=
  let p1 := nextTok toks
  let p2 := nextTok p1.2
  { curToken := p1.1, peekToken := p2.1, rest := p2.2,
    symbolsDeclared := [], labelsDeclared := [], labelsGotoed := [],
    emitter := { fullPath := "out.c".toList, header := [], code := [] } }

/-- Parser fuel adequate for any stream produced from `src` (each parser
step consumes fuel at most linearly in the token count). -/
def compileFuel (src : List Char) : Nat := 8 * src.length + 64

/-- The compilation pipeline of `teenytiny.main`: lex, parse-and-emit,
and produce the text that `Emitter.writeFile` would persist. -/
def compileF (src : List Char) : Except (List Char) (List Char) :=
  ebind (tokenize src) fun toks =>
  ebind (programF (compileFuel src) (initPState toks)) fun st =>
    .ok (writeFileContent st.emitter)

/-- `teenytiny.main` observed through the files it writes: on success
exactly one output artifact is written (the rendered emitter buffers); on
a compilation error the process exits and nothing is written. -/
def mainF (src : List Char) : Except (List Char) (List (List Char)) :=
  ebind (compileF src) fun out => .ok [out]

/-- Extract the payload of a successful result (used to state concrete
witness facts about computed states). -/
def okAux {α : Type} (r : Except (List Char) α) (d : α) : α :=
  match r with
  | .ok a => a
  | .error _ => d

/-- Whether a result is a success. -/
def isOkE {α : Type} (r : Except (List Char) α) : Bool :=
  match r with
  | .ok _ => true
  | .error _ => false

/-- A default parser state for extracting computed states in closed
witness statements. -/
def dPS : PState := initPState []

/-! ## General lemmas -/

deriving instance DecidableEq for Except

/-! ## C3: comparison requires at least one comparator -/

/-- Token stream of `1 > 2 > 3` followed by a newline: two comparator
pairs after the first expression. -/
def c3toks : List Token :=
  [⟨"1".toList, .NUMBER⟩, ⟨">".toList, .GT⟩, ⟨"2".toList, .NUMBER⟩,
   ⟨">".toList, .GT⟩, ⟨"3".toList, .NUMBER⟩, ⟨"\n".toList, .NEWLINE⟩, eofToken]

/-! ## C2: first-use deduplication of variable declarations -/

/-- The header line emitted for the first use of a variable. -/
def declLine (name : List Char) : List Char :=
  "float ".toList ++ name ++ ";".toList

/-- Relation between parser states that leaves the declared-variable set
and the header buffer untouched (every parser step except the first-use
declaration in `LET`/`INPUT` and the program prologue). -/
def FrameHS (st st1 : PState) : Prop :=
  st1.symbolsDeclared = st.symbolsDeclared ∧
    st1.emitter.header = st.emitter.header

/-- The deduplication invariant of C2: the header buffer holds the
declaration line of exactly the declared variables, each once. -/
def InvDecl (st : PState) : Prop :=
  ∀ name, st.emitter.header.count (declLine name) =
    if name ∈ st.symbolsDeclared then 1 else 0

/-- The token stream of `LET x = 1 ⏎ LET x = 2 ⏎`: the same variable
assigned twice. -/
def c2toks : List Token :=
  [⟨"LET".toList, .LET⟩, ⟨"x".toList, .IDENT⟩, ⟨"=".toList, .EQ⟩,
   ⟨"1".toList, .NUMBER⟩, ⟨"\n".toList, .NEWLINE⟩,
   ⟨"LET".toList, .LET⟩, ⟨"x".toList, .IDENT⟩, ⟨"=".toList, .EQ⟩,
   ⟨"2".toList, .NUMBER⟩, ⟨"\n".toList, .NEWLINE⟩, eofToken]

/-- A parser state after consuming a whole program whose only `GOTO`
target was never declared. -/
def c1badSt : PState :=
  { curToken := eofToken, peekToken := eofToken, rest := [],
    symbolsDeclared := [], labelsDeclared := [],
    labelsGotoed := ["x".toList],
    emitter := { fullPath := "out.c".toList, header := [], code := [] } }

/-- Lexer state on the source `+` (first token a plus sign). -/
def c8st : LexerState := mkLexer "+".toList

/-- A lexer state whose scan position is already past the end of the
buffer (reachable by pulling tokens past the end). -/
def c9pastEnd : LexerState := { source := ['\n'], curPos := 3, curChar := eofChar }

/-- A lexer over a source that contains the `'\0'` sentinel character
followed by a letter. -/
def c9lex : LexerState := mkLexer [eofChar, 'A']

/-- Lexer state on the source `12x` (a digit run followed by a letter). -/
def c5st : LexerState := mkLexer "12x".toList

/-- The token and state computed by the lexer on `12x`. -/
def c5res : Token × LexerState := okAux (getToken c5st) (eofToken, c5st)

/-- Destructor for successful error-propagating sequencing. -/
theorem except_bind_ok {α β : Type} (b : Except (List Char) α)
    (g : α → Except (List Char) β) (r : β)
    (h : ebind b g = .ok r) :
    ∃ x, b = .ok x ∧ g x = .ok r := by
  cases b with
  | error e => simp [ebind] at h
  | ok x => exact ⟨x, rfl, h⟩

/-- Computation rule for sequencing after a success. -/
theorem ebind_ok {α β : Type} (x : α) (g : α → Except (List Char) β) :
    ebind (.ok x) g = g x := rfl

/-- Computation rule for sequencing after an abort. -/
theorem ebind_error {α β : Type} (e : List Char) (g : α → Except (List Char) β) :
    ebind (.error e) g = (.error e : Except (List Char) β) := rfl

/-! ## C6: keyword lookup -/

/-- C6: `Token.mapTextToKeywordType` is a total, deterministic function:
it returns kind `K` exactly when `K`'s enum name equals the input text
and `K`'s numeric value lies in the reserved keyword band `[100, 200)`;
on every other string (including the names of non-keyword kinds) it
returns `none`. -/
theorem mapTextToKeywordType_iff (s : List Char) (k : TokenType) :
    mapTextToKeywordType s = some k ↔
      (k.name = s ∧ 100 ≤ k.value ∧ k.value < 200) := by
  constructor
  · intro h
    have hp := List.find?_some h
    simp only [Bool.and_eq_true, decide_eq_true_eq] at hp
    exact ⟨hp.1.1, hp.1.2, hp.2⟩
  · rintro ⟨h1, h2, h3⟩
    subst h1
    cases k <;> first
      | decide
      | (exfalso; simp [TokenType.value] at h2 h3)

/-! ## C7: determinism -/

/-- C7: compilation is deterministic — two runs of the pipeline on the
same source string produce byte-identical output text. -/
theorem compile_deterministic (src : List Char) (o1 o2 : List Char)
    (h1 : compileF src = .ok o1) (h2 : compileF src = .ok o2) : o1 = o2 := by
  rw [h1] at h2
  exact Except.ok.inj h2

/-- Witness: both runs on a concrete program yield the same output. -/
theorem compile_deterministic_witness :
    okAux (compileF "PRINT 1".toList) [] = okAux (compileF "PRINT 1".toList) [] :=
  compile_deterministic "PRINT 1".toList _ _ rfl rfl

/-- C3: after the first expression of a comparison, if the current token
is not a comparison operator the parser aborts with the
expected-comparison-operator error — a comparison with zero comparators
is never accepted; and after the first comparator further
(comparator, expression) pairs are accepted (concrete stream `1>2>3`). -/
theorem comparison_requires_comparator :
    (∀ (fuel : Nat) (st st1 : PState), expressionF fuel st = .ok st1 →
      isComparisonOp st1.curToken.kind = false →
      comparisonF fuel st = .error (parseErr
        ("Expected comparison operator at: ".toList ++ st1.curToken.text)))
    ∧ isOkE (comparisonF 50 (initPState c3toks)) = true := by
  constructor
  · intro fuel st st1 he hc
    simp [comparisonF, he, ebind_ok, hc]
  · decide

/-- Witness: on the stream `1 ⏎` the expression parses but the next token
is a newline, so the comparison aborts with the concrete error. -/
theorem comparison_requires_comparator_witness :
    comparisonF 10 (initPState [⟨"1".toList, .NUMBER⟩, ⟨"\n".toList, .NEWLINE⟩, eofToken]) =
      .error (parseErr ("Expected comparison operator at: ".toList ++
        (okAux (expressionF 10 (initPState
          [⟨"1".toList, .NUMBER⟩, ⟨"\n".toList, .NEWLINE⟩, eofToken])) dPS).curToken.text)) :=
  comparison_requires_comparator.1 10 _ _ rfl (by decide)

/-! ## C4: no output on abort -/

/-- C4: the driver persists the output artifact exactly once, and only
when the parser's top-level entry returns without aborting; in
particular `PRINT y` with `y` never assigned aborts with the
undeclared-variable error and nothing is written. -/
theorem output_written_only_on_success :
    (∀ (src : List Char) (files : List (List Char)),
      mainF src = .ok files → files.length = 1)
    ∧ mainF "PRINT y".toList =
        .error (parseErr "Referencing variable before assignment: y".toList) := by
  constructor
  · intro src files h
    unfold mainF at h
    obtain ⟨out, _, hg⟩ := except_bind_ok _ _ _ h
    cases hg
    rfl
  · decide

/-- Witness: a successful compilation writes exactly one artifact. -/
theorem output_written_only_on_success_witness :
    (okAux (mainF "PRINT 1".toList) []).length = 1 :=
  output_written_only_on_success.1 "PRINT 1".toList _ rfl

/-! ## C10: LET declares before parsing the right-hand side -/

/-- C10: in a `LET` statement the new variable is added to the
declared-variable set before the right-hand side is parsed, so
`LET x = x + 1` with `x` previously undeclared (the initial parser state
has an empty declared-variable set) compiles successfully, and `x` ends
up declared. -/
theorem let_self_reference_accepted :
    isOkE (compileF "LET x = x + 1".toList) = true ∧
    "x".toList ∈ (okAux (programF (compileFuel "LET x = x + 1".toList)
      (initPState (okAux (tokenize "LET x = x + 1".toList) []))) dPS).symbolsDeclared := by
  decide

/-! ## C1: GOTO'ed labels are declared (deferred check) -/

/-- C1: whenever compilation succeeds, every label recorded by a `GOTO`
is in the declared-label set; whenever after all statements some
`GOTO`'ed label is missing from the declared set, the deferred check
aborts with the undeclared-label error; and the check being deferred,
forward references are accepted (`GOTO l` before `LABEL l` compiles). -/
theorem goto_labels_declared :
    (∀ (fuel : Nat) (st0 st1 : PState), programF fuel st0 = .ok st1 →
      ∀ l ∈ st1.labelsGotoed, l ∈ st1.labelsDeclared)
    ∧ (∀ st : PState, (∃ l ∈ st.labelsGotoed, l ∉ st.labelsDeclared) →
        ∃ lx, lx ∉ st.labelsDeclared ∧ checkLabelsF st = .error (parseErr
          ("Attempting to GOTO to undeclared label: ".toList ++ lx)))
    ∧ isOkE (compileF "GOTO l\nLABEL l".toList) = true := by
  refine ⟨?_, ?_, by decide⟩
  · intro fuel st0 st1 h l hl
    unfold programF at h
    obtain ⟨st3, _, h4⟩ := except_bind_ok _ _ _ h
    obtain ⟨st4, hchk, hep⟩ := except_bind_ok _ _ _ h4
    cases hep
    unfold checkLabelsF at hchk
    rcases hfind : st3.labelsGotoed.find? (fun l => decide (l ∉ st3.labelsDeclared)) with _ | lx
    · rw [hfind] at hchk
      cases hchk
      have := List.find?_eq_none.mp hfind l (by simpa [pemitLine, Emitter.emitLine] using hl)
      simp only [decide_eq_true_eq, not_not] at this
      simpa [pemitLine, Emitter.emitLine] using this
    · rw [hfind] at hchk
      cases hchk
  · intro st ⟨l, hmem, hnot⟩
    rcases hfind : st.labelsGotoed.find? (fun l => decide (l ∉ st.labelsDeclared)) with _ | lx
    · exact absurd (by simpa using List.find?_eq_none.mp hfind l hmem) (by simp [hnot])
    · have hp := List.find?_some hfind
      simp only [decide_eq_true_eq] at hp
      exact ⟨lx, hp, by unfold checkLabelsF; rw [hfind]⟩

theorem frameHS_trans {a b c : PState} (h1 : FrameHS a b) (h2 : FrameHS b c) :
    FrameHS a c := ⟨h2.1.trans h1.1, h2.2.trans h1.2⟩

theorem frameHS_skipTok (st : PState) : FrameHS st (skipTok st) := ⟨rfl, rfl⟩

theorem frameHS_pemit (st : PState) (t : List Char) : FrameHS st (pemit st t) :=
  ⟨rfl, rfl⟩

theorem frameHS_pemitLine (st : PState) (t : List Char) :
    FrameHS st (pemitLine st t) := ⟨rfl, rfl⟩

theorem frameHS_skipTok_pemit (st : PState) (t : List Char) :
    FrameHS st (skipTok (pemit st t)) := ⟨rfl, rfl⟩

theorem frameHS_skipTokReq {k : TokenType} {st st1 : PState}
    (h : skipTokReq k st = .ok st1) : FrameHS st st1 := by
  unfold skipTokReq at h
  split at h
  · cases h; exact ⟨rfl, rfl⟩
  · cases h

theorem frameHS_primaryF {st st1 : PState} (h : primaryF st = .ok st1) :
    FrameHS st st1 := by
  unfold primaryF at h
  split_ifs at h <;> cases h <;> exact ⟨rfl, rfl⟩

theorem frameHS_unaryF {st st1 : PState} (h : unaryF st = .ok st1) :
    FrameHS st st1 := by
  unfold unaryF at h
  split_ifs at h
  · exact frameHS_trans (frameHS_skipTok_pemit st st.curToken.text)
      (frameHS_primaryF h)
  · exact frameHS_primaryF h

theorem frameHS_termLoopF : ∀ (fuel : Nat) {st st1 : PState},
    termLoopF fuel st = .ok st1 → FrameHS st st1 := by
  intro fuel
  induction fuel with
  | zero => intro st st1 h; simp [termLoopF] at h
  | succ f ih =>
    intro st st1 h
    unfold termLoopF at h
    split_ifs at h
    · obtain ⟨x, hx, hr⟩ := except_bind_ok _ _ _ h
      exact frameHS_trans (frameHS_trans
        (frameHS_skipTok_pemit st st.curToken.text) (frameHS_unaryF hx)) (ih hr)
    · cases h; exact ⟨rfl, rfl⟩

theorem frameHS_termF {fuel : Nat} {st st1 : PState}
    (h : termF fuel st = .ok st1) : FrameHS st st1 := by
  unfold termF at h
  obtain ⟨x, hx, hr⟩ := except_bind_ok _ _ _ h
  exact frameHS_trans (frameHS_unaryF hx) (frameHS_termLoopF fuel hr)

theorem frameHS_exprLoopF : ∀ (fuel : Nat) {st st1 : PState},
    exprLoopF fuel st = .ok st1 → FrameHS st st1 := by
  intro fuel
  induction fuel with
  | zero => intro st st1 h; simp [exprLoopF] at h
  | succ f ih =>
    intro st st1 h
    unfold exprLoopF at h
    split_ifs at h
    · obtain ⟨x, hx, hr⟩ := except_bind_ok _ _ _ h
      exact frameHS_trans (frameHS_trans
        (frameHS_skipTok_pemit st st.curToken.text) (frameHS_termF hx)) (ih hr)
    · cases h; exact ⟨rfl, rfl⟩

theorem frameHS_expressionF {fuel : Nat} {st st1 : PState}
    (h : expressionF fuel st = .ok st1) : FrameHS st st1 := by
  unfold expressionF at h
  obtain ⟨x, hx, hr⟩ := except_bind_ok _ _ _ h
  exact frameHS_trans (frameHS_termF hx) (frameHS_exprLoopF fuel hr)

theorem frameHS_compLoopF : ∀ (fuel : Nat) {st st1 : PState},
    compLoopF fuel st = .ok st1 → FrameHS st st1 := by
  intro fuel
  induction fuel with
  | zero => intro st st1 h; simp [compLoopF] at h
  | succ f ih =>
    intro st st1 h
    unfold compLoopF at h
    split_ifs at h
    · obtain ⟨x, hx, hr⟩ := except_bind_ok _ _ _ h
      exact frameHS_trans (frameHS_trans
        (frameHS_skipTok_pemit st st.curToken.text) (frameHS_expressionF hx)) (ih hr)
    · cases h; exact ⟨rfl, rfl⟩

theorem frameHS_comparisonF {fuel : Nat} {st st1 : PState}
    (h : comparisonF fuel st = .ok st1) : FrameHS st st1 := by
  unfold comparisonF at h
  obtain ⟨x, hx, hr⟩ := except_bind_ok _ _ _ h
  by_cases hc : isComparisonOp x.curToken.kind = true
  · rw [if_pos hc] at hr
    obtain ⟨y, hy, hr2⟩ := except_bind_ok _ _ _ hr
    exact frameHS_trans (frameHS_expressionF hx)
      (frameHS_trans (frameHS_trans (frameHS_skipTok_pemit x x.curToken.text)
        (frameHS_expressionF hy)) (frameHS_compLoopF fuel hr2))
  · rw [if_neg hc] at hr
    cases hr

theorem frameHS_skipNewlinesF : ∀ (fuel : Nat) (st : PState),
    FrameHS st (skipNewlinesF fuel st) := by
  intro fuel
  induction fuel with
  | zero => intro st; exact ⟨rfl, rfl⟩
  | succ f ih =>
    intro st
    unfold skipNewlinesF
    split_ifs
    · exact frameHS_trans (frameHS_skipTok st) (ih (skipTok st))
    · exact ⟨rfl, rfl⟩

theorem frameHS_nlF {fuel : Nat} {st st1 : PState}
    (h : nlF fuel st = .ok st1) : FrameHS st st1 := by
  unfold nlF at h
  obtain ⟨x, hx, hr⟩ := except_bind_ok _ _ _ h
  cases hr
  exact frameHS_trans (frameHS_skipTokReq hx) (frameHS_skipNewlinesF fuel x)

theorem invDecl_of_frame {st st1 : PState} (hf : FrameHS st st1)
    (h : InvDecl st) : InvDecl st1 := by
  intro name
  rw [hf.1, hf.2]
  exact h name

theorem declLine_inj {m n : List Char} (h : declLine m = declLine n) :
    m = n := by
  unfold declLine at h
  exact List.append_cancel_left (List.append_cancel_right h)

/-- First-use declaration step of `LET`/`INPUT`: add the name to the
declared set and append its declaration line to the header. -/
theorem invDecl_declStep {st : PState} {x : List Char}
    (hx : x ∉ st.symbolsDeclared) (hI : InvDecl st) :
    InvDecl (pheaderLine
      { st with symbolsDeclared := x :: st.symbolsDeclared } (declLine x)) := by
  intro name
  show (st.emitter.header ++ [declLine x]).count (declLine name) =
    if name ∈ x :: st.symbolsDeclared then 1 else 0
  rw [List.count_append]
  by_cases hn : name = x
  · subst hn
    rw [hI name]
    simp [hx, List.count_cons]
  · have hne : declLine name ≠ declLine x := fun hh => hn (declLine_inj hh)
    rw [hI name]
    simp [List.count_cons, hne, hn]

/-- Appending a header line that is not a declaration line preserves the
invariant (the program prologue). -/
theorem invDecl_nonDecl {st : PState} (t : List Char)
    (ht : ∀ name, t ≠ declLine name) (hI : InvDecl st) :
    InvDecl (pheaderLine st t) := by
  intro name
  show (st.emitter.header ++ [t]).count (declLine name) = _
  rw [List.count_append, hI name]
  have hts : ¬ (declLine name = t) := fun hh => ht name hh.symm
  have ht2 : ¬ (t = declLine name) := ht name
  simp [List.count_cons, hts, ht2, pheaderLine, Emitter.headerLine]

theorem declLine_head (name : List Char) :
    declLine name = 'f' :: ("loat ".toList ++ name ++ ";".toList) := rfl

theorem include_ne_declLine (name : List Char) :
    "#include <stdio.h>".toList ≠ declLine name := by
  rw [declLine_head,
    show "#include <stdio.h>".toList = '#' :: "include <stdio.h>".toList from rfl]
  intro h
  injection h with h1 _
  exact absurd h1 (by decide)

theorem intmain_ne_declLine (name : List Char) :
    "int main(void)\x7b".toList ≠ declLine name := by
  rw [declLine_head,
    show "int main(void)\x7b".toList = 'i' :: "nt main(void)\x7b".toList from rfl]
  intro h
  injection h with h1 _
  exact absurd h1 (by decide)

/-- `statementF` and `stmtLoopUntilF` preserve the deduplication
invariant: the only header appends are first-use declarations. -/
theorem statement_inv : ∀ fuel : Nat,
    (∀ st st1, statementF fuel st = .ok st1 → InvDecl st → InvDecl st1) ∧
    (∀ k st st1, stmtLoopUntilF fuel k st = .ok st1 → InvDecl st → InvDecl st1) := by
  intro fuel
  induction fuel with
  | zero =>
    constructor
    · intro st st1 h; simp [statementF] at h
    · intro k st st1 h; simp [stmtLoopUntilF] at h
  | succ f ih =>
    constructor
    · intro st st1 h hI
      unfold statementF at h
      obtain ⟨stB, hB, hnl⟩ := except_bind_ok _ _ _ h
      refine invDecl_of_frame (frameHS_nlF hnl) ?_
      clear h hnl
      have hIskip : InvDecl (skipTok st) := invDecl_of_frame (frameHS_skipTok st) hI
      by_cases h1 : st.curToken.kind = .PRINT
      · rw [if_pos h1] at hB
        by_cases h2 : (skipTok st).curToken.kind = .STRING
        · -- PRINT string
          rw [if_pos h2] at hB
          cases hB
          exact invDecl_of_frame (frameHS_skipTok _)
            (invDecl_of_frame (frameHS_pemitLine _ _) hIskip)
        · -- PRINT expression
          rw [if_neg h2] at hB
          obtain ⟨st2, hx, hok⟩ := except_bind_ok _ _ _ hB
          cases hok
          exact invDecl_of_frame (frameHS_pemitLine _ _)
            (invDecl_of_frame (frameHS_expressionF hx)
              (invDecl_of_frame (frameHS_pemit _ _) hIskip))
      rw [if_neg h1] at hB
      by_cases h3 : st.curToken.kind = .IF
      · -- IF
        rw [if_pos h3] at hB
        obtain ⟨st2, hcmp, hB⟩ := except_bind_ok _ _ _ hB
        obtain ⟨st3, hthen, hB⟩ := except_bind_ok _ _ _ hB
        obtain ⟨st4, hnl2, hB⟩ := except_bind_ok _ _ _ hB
        obtain ⟨st5, hloop, hB⟩ := except_bind_ok _ _ _ hB
        obtain ⟨st6, hend, hB⟩ := except_bind_ok _ _ _ hB
        cases hB
        have hI2 := invDecl_of_frame (frameHS_comparisonF hcmp)
          (invDecl_of_frame (frameHS_pemit _ _) hIskip)
        have hI3 := invDecl_of_frame (frameHS_skipTokReq hthen) hI2
        have hI4 := invDecl_of_frame (frameHS_nlF hnl2) hI3
        have hI5 := (ih.2) _ _ _ hloop (invDecl_of_frame (frameHS_pemitLine _ _) hI4)
        have hI6 := invDecl_of_frame (frameHS_skipTokReq hend) hI5
        exact invDecl_of_frame (frameHS_pemitLine _ _) hI6
      rw [if_neg h3] at hB
      by_cases h4 : st.curToken.kind = .WHILE
      · -- WHILE
        rw [if_pos h4] at hB
        obtain ⟨st2, hcmp, hB⟩ := except_bind_ok _ _ _ hB
        obtain ⟨st3, hrep, hB⟩ := except_bind_ok _ _ _ hB
        obtain ⟨st4, hnl2, hB⟩ := except_bind_ok _ _ _ hB
        obtain ⟨st5, hloop, hB⟩ := except_bind_ok _ _ _ hB
        obtain ⟨st6, hend, hB⟩ := except_bind_ok _ _ _ hB
        cases hB
        have hI2 := invDecl_of_frame (frameHS_comparisonF hcmp)
          (invDecl_of_frame (frameHS_pemit _ _) hIskip)
        have hI3 := invDecl_of_frame (frameHS_skipTokReq hrep) hI2
        have hI4 := invDecl_of_frame (frameHS_nlF hnl2) hI3
        have hI5 := (ih.2) _ _ _ hloop (invDecl_of_frame (frameHS_pemitLine _ _) hI4)
        have hI6 := invDecl_of_frame (frameHS_skipTokReq hend) hI5
        exact invDecl_of_frame (frameHS_pemitLine _ _) hI6
      rw [if_neg h4] at hB
      by_cases h5 : st.curToken.kind = .LABEL
      · rw [if_pos h5] at hB
        by_cases h6 : (skipTok st).curToken.text ∈ (skipTok st).labelsDeclared
        · -- LABEL, duplicate: abort
          rw [if_pos h6] at hB
          cases hB
        · -- LABEL, fresh
          rw [if_neg h6] at hB
          refine invDecl_of_frame (frameHS_skipTokReq hB)
            (invDecl_of_frame (frameHS_pemitLine _ _) ?_)
          exact fun name => hIskip name
      rw [if_neg h5] at hB
      by_cases h7 : st.curToken.kind = .GOTO
      · -- GOTO
        rw [if_pos h7] at hB
        refine invDecl_of_frame (frameHS_skipTokReq hB)
          (invDecl_of_frame (frameHS_pemitLine _ _) ?_)
        exact fun name => hIskip name
      rw [if_neg h7] at hB
      by_cases h8 : st.curToken.kind = .LET
      · rw [if_pos h8] at hB
        by_cases h9 : (skipTok st).curToken.text ∈ (skipTok st).symbolsDeclared
        · -- LET, already declared
          rw [if_pos h9] at hB
          obtain ⟨st3, hskip, hB⟩ := except_bind_ok _ _ _ hB
          obtain ⟨st4, heq, hB⟩ := except_bind_ok _ _ _ hB
          obtain ⟨st5, hexp, hB⟩ := except_bind_ok _ _ _ hB
          cases hB
          exact invDecl_of_frame (frameHS_pemitLine _ _)
            (invDecl_of_frame (frameHS_expressionF hexp)
              (invDecl_of_frame (frameHS_skipTokReq heq)
                (invDecl_of_frame (frameHS_skipTokReq hskip)
                  (invDecl_of_frame (frameHS_pemit _ _) hIskip))))
        · -- LET, first use: declaration step
          rw [if_neg h9] at hB
          obtain ⟨st3, hskip, hB⟩ := except_bind_ok _ _ _ hB
          obtain ⟨st4, heq, hB⟩ := except_bind_ok _ _ _ hB
          obtain ⟨st5, hexp, hB⟩ := except_bind_ok _ _ _ hB
          cases hB
          have hI2 := invDecl_declStep h9 hIskip
          exact invDecl_of_frame (frameHS_pemitLine _ _)
            (invDecl_of_frame (frameHS_expressionF hexp)
              (invDecl_of_frame (frameHS_skipTokReq heq)
                (invDecl_of_frame (frameHS_skipTokReq hskip)
                  (invDecl_of_frame (frameHS_pemit _ _) hI2))))
      rw [if_neg h8] at hB
      by_cases h10 : st.curToken.kind = .INPUT
      · rw [if_pos h10] at hB
        by_cases h11 : (skipTok st).curToken.text ∈ (skipTok st).symbolsDeclared
        · -- INPUT, already declared
          rw [if_pos h11] at hB
          refine invDecl_of_frame (frameHS_skipTokReq hB) ?_
          exact invDecl_of_frame (frameHS_pemitLine _ _)
            (invDecl_of_frame (frameHS_pemitLine _ _)
              (invDecl_of_frame (frameHS_pemit _ _)
                (invDecl_of_frame (frameHS_pemitLine _ _)
                  (invDecl_of_frame (frameHS_pemitLine _ _) hIskip))))
        · -- INPUT, first use: declaration step
          rw [if_neg h11] at hB
          have hI2 := invDecl_declStep h11 hIskip
          refine invDecl_of_frame (frameHS_skipTokReq hB) ?_
          exact invDecl_of_frame (frameHS_pemitLine _ _)
            (invDecl_of_frame (frameHS_pemitLine _ _)
              (invDecl_of_frame (frameHS_pemit _ _)
                (invDecl_of_frame (frameHS_pemitLine _ _)
                  (invDecl_of_frame (frameHS_pemitLine _ _) hI2))))
      · -- invalid statement: abort
        rw [if_neg h10] at hB
        cases hB
    · intro k st st1 h hI
      unfold stmtLoopUntilF at h
      by_cases hk : st.curToken.kind = k
      · rw [if_pos hk] at h
        cases h
        exact hI
      · rw [if_neg hk] at h
        obtain ⟨x, hx, hr⟩ := except_bind_ok _ _ _ h
        exact (ih.2) _ _ _ hr ((ih.1) _ _ hx hI)

/-- C2: the `LET`/`INPUT` handlers append a declaration line only for
names not yet declared (adding the name in the same step), so after any
successful run from the initial parser state the header buffer contains
at most one declaration per variable name. -/
theorem header_declarations_unique :
    ∀ (toks : List Token) (fuel : Nat) (st1 : PState),
      programF fuel (initPState toks) = .ok st1 →
      ∀ name, st1.emitter.header.count (declLine name) ≤ 1 := by
  intro toks fuel st1 h name
  unfold programF at h
  obtain ⟨st3, h3, hrest⟩ := except_bind_ok _ _ _ h
  obtain ⟨st4, hchk, hep⟩ := except_bind_ok _ _ _ hrest
  cases hep
  have hI0 : InvDecl (initPState toks) := by
    intro n
    simp [initPState]
  have hI1 : InvDecl (pheaderLine (pheaderLine (initPState toks)
      "#include <stdio.h>".toList) "int main(void)\x7b".toList) :=
    invDecl_nonDecl _ intmain_ne_declLine
      (invDecl_nonDecl _ include_ne_declLine hI0)
  have hI2 := invDecl_of_frame (frameHS_skipNewlinesF fuel _) hI1
  have hI3 := (statement_inv fuel).2 _ _ _ h3 hI2
  have hst4 : st4 = st3 := by
    unfold checkLabelsF at hchk
    rcases hf : st3.labelsGotoed.find? (fun l => decide (l ∉ st3.labelsDeclared)) with _ | lx
    · rw [hf] at hchk; cases hchk; rfl
    · rw [hf] at hchk; cases hchk
  subst hst4
  have hc := hI3 name
  show st4.emitter.header.count (declLine name) ≤ 1
  rw [hc]
  split_ifs <;> omega

/-- Witness: after compiling the double assignment the header has at
most one declaration of `x`. -/
theorem header_declarations_unique_witness :
    (okAux (programF 60 (initPState c2toks)) dPS).emitter.header.count
      (declLine "x".toList) ≤ 1 :=
  header_declarations_unique c2toks 60 _ rfl "x".toList

/-- Witness: on a state with a `GOTO`'ed but undeclared label the
deferred check aborts with the undeclared-label error. -/
theorem goto_labels_declared_witness :
    ∃ lx, lx ∉ c1badSt.labelsDeclared ∧ checkLabelsF c1badSt = .error (parseErr
      ("Attempting to GOTO to undeclared label: ".toList ++ lx)) :=
  goto_labels_declared.2.1 c1badSt ⟨"x".toList, by decide, by decide⟩

/-! ## Lexer lemmas (for C5, C8, C9) -/

theorem skipCurChar_source (st : LexerState) : (skipCurChar st).source = st.source := rfl

theorem skipCurChar_pos (st : LexerState) : (skipCurChar st).curPos = st.curPos + 1 := rfl

theorem wf_skipCurChar (st : LexerState) : WFlex (skipCurChar st) := rfl

theorem skipWhitespaceGo_source : ∀ (f : Nat) (st : LexerState),
    (skipWhitespaceGo f st).source = st.source := by
  intro f
  induction f with
  | zero => intro st; rfl
  | succ f ih =>
    intro st
    unfold skipWhitespaceGo
    split_ifs
    · exact ih (skipCurChar st)
    · rfl

theorem skipWhitespaceGo_pos : ∀ (f : Nat) (st : LexerState),
    st.curPos ≤ (skipWhitespaceGo f st).curPos := by
  intro f
  induction f with
  | zero => intro st; exact Nat.le_refl _
  | succ f ih =>
    intro st
    unfold skipWhitespaceGo
    split_ifs
    · have h2 := ih (skipCurChar st)
      rw [skipCurChar_pos] at h2
      omega
    · exact Nat.le_refl _

theorem wf_skipWhitespaceGo : ∀ (f : Nat) (st : LexerState), WFlex st →
    WFlex (skipWhitespaceGo f st) := by
  intro f
  induction f with
  | zero => intro st h; exact h
  | succ f ih =>
    intro st h
    unfold skipWhitespaceGo
    split_ifs
    · exact ih _ (wf_skipCurChar st)
    · exact h

theorem skipCommentGo_source : ∀ (f : Nat) (st : LexerState),
    (skipCommentGo f st).source = st.source := by
  intro f
  induction f with
  | zero => intro st; rfl
  | succ f ih =>
    intro st
    unfold skipCommentGo
    split_ifs
    · exact ih (skipCurChar st)
    · rfl

theorem skipCommentGo_pos : ∀ (f : Nat) (st : LexerState),
    st.curPos ≤ (skipCommentGo f st).curPos := by
  intro f
  induction f with
  | zero => intro st; exact Nat.le_refl _
  | succ f ih =>
    intro st
    unfold skipCommentGo
    split_ifs
    · have h2 := ih (skipCurChar st)
      rw [skipCurChar_pos] at h2
      omega
    · exact Nat.le_refl _

theorem wf_skipCommentGo : ∀ (f : Nat) (st : LexerState), WFlex st →
    WFlex (skipCommentGo f st) := by
  intro f
  induction f with
  | zero => intro st h; exact h
  | succ f ih =>
    intro st h
    unfold skipCommentGo
    split_ifs
    · exact ih _ (wf_skipCurChar st)
    · exact h

theorem skipWhitespace_source (st : LexerState) :
    (skipWhitespace st).source = st.source := skipWhitespaceGo_source _ _

theorem skipWhitespace_pos (st : LexerState) :
    st.curPos ≤ (skipWhitespace st).curPos := skipWhitespaceGo_pos _ _

theorem wf_skipWhitespace (st : LexerState) (h : WFlex st) :
    WFlex (skipWhitespace st) := wf_skipWhitespaceGo _ _ h

theorem skipComment_source (st : LexerState) :
    (skipComment st).source = st.source := by
  unfold skipComment
  split_ifs
  · exact skipCommentGo_source _ _
  · rfl

theorem skipComment_pos (st : LexerState) :
    st.curPos ≤ (skipComment st).curPos := by
  unfold skipComment
  split_ifs
  · exact skipCommentGo_pos _ _
  · exact Nat.le_refl _

theorem wf_skipComment (st : LexerState) (h : WFlex st) :
    WFlex (skipComment st) := by
  unfold skipComment
  split_ifs
  · exact wf_skipCommentGo _ _ h
  · exact h

theorem scanDigitsGo_source : ∀ (f : Nat) (st : LexerState),
    (scanDigitsGo f st).source = st.source := by
  intro f
  induction f with
  | zero => intro st; rfl
  | succ f ih =>
    intro st
    unfold scanDigitsGo
    split_ifs
    · exact ih (skipCurChar st)
    · rfl

theorem scanDigitsGo_pos : ∀ (f : Nat) (st : LexerState),
    st.curPos ≤ (scanDigitsGo f st).curPos := by
  intro f
  induction f with
  | zero => intro st; exact Nat.le_refl _
  | succ f ih =>
    intro st
    unfold scanDigitsGo
    split_ifs
    · have h2 := ih (skipCurChar st)
      rw [skipCurChar_pos] at h2
      omega
    · exact Nat.le_refl _

theorem scanAlnumGo_pos : ∀ (f : Nat) (st : LexerState),
    st.curPos ≤ (scanAlnumGo f st).curPos := by
  intro f
  induction f with
  | zero => intro st; exact Nat.le_refl _
  | succ f ih =>
    intro st
    unfold scanAlnumGo
    split_ifs
    · have h2 := ih (skipCurChar st)
      rw [skipCurChar_pos] at h2
      omega
    · exact Nat.le_refl _

theorem scanStringGo_ok : ∀ (f : Nat) {st st1 : LexerState},
    scanStringGo f st = .ok st1 →
    st.curPos ≤ st1.curPos ∧ st1.source = st.source := by
  intro f
  induction f with
  | zero => intro st st1 h; simp [scanStringGo] at h
  | succ f ih =>
    intro st st1 h
    unfold scanStringGo at h
    split_ifs at h
    · cases h; exact ⟨Nat.le_refl _, rfl⟩
    · obtain ⟨h1, h2⟩ := ih h
      rw [skipCurChar_pos] at h1
      exact ⟨by omega, h2⟩

theorem charAt_ge {s : List Char} {i : Nat} (h : s.length ≤ i) :
    charAt s i = eofChar := by
  simp [charAt, List.getD_eq_getElem?_getD, List.getElem?_eq_none h]

theorem charAt_lt {s : List Char} {i : Nat} (h : i < s.length) :
    charAt s i = s[i] := by
  simp [charAt, List.getD_eq_getElem?_getD, List.getElem?_eq_getElem h]

theorem charAt_lt_of_ne {s : List Char} {i : Nat} (h : charAt s i ≠ eofChar) :
    i < s.length := by
  by_contra hge
  push_neg at hge
  exact h (charAt_ge hge)

theorem charAt_digit_lt {s : List Char} {i : Nat}
    (h : (charAt s i).isDigit = true) : i < s.length := by
  refine charAt_lt_of_ne fun he => ?_
  rw [he] at h
  exact absurd h (by decide)

theorem isDigit_ne {c x : Char} (h : c.isDigit = true) (hx : x.isDigit = false) :
    ¬ (c = x) := by
  intro he
  rw [he, hx] at h
  cases h

theorem ws_of_digit {c : Char} (h : c.isDigit = true) :
    isWhitespaceChar c = false := by
  unfold isWhitespaceChar
  have h1 : ¬ (c = ' ') := isDigit_ne h (by decide)
  have h2 : ¬ (c = '\t') := isDigit_ne h (by decide)
  have h3 : ¬ (c = '\r') := isDigit_ne h (by decide)
  simp [h1, h2, h3]

theorem skipWhitespace_nop {st : LexerState}
    (h : isWhitespaceChar st.curChar = false) : skipWhitespace st = st := by
  unfold skipWhitespace skipWhitespaceGo
  simp [h]

theorem skipComment_nop {st : LexerState} (h : ¬ st.curChar = '#') :
    skipComment st = st := by
  simp [skipComment, h]

theorem scanDigitsGo_peek : ∀ (f : Nat) (st : LexerState),
    st.source.length ≤ st.curPos + f →
    ((peek (scanDigitsGo f st)).isDigit = false) := by
  intro f
  induction f with
  | zero =>
    intro st h
    show (peek st).isDigit = false
    show (charAt st.source (st.curPos + 1)).isDigit = false
    rw [charAt_ge (by omega)]
    decide
  | succ f ih =>
    intro st h
    unfold scanDigitsGo
    split_ifs with hd
    · refine ih (skipCurChar st) ?_
      have hlt : st.curPos + 1 < st.source.length := charAt_digit_lt hd
      rw [skipCurChar_source, skipCurChar_pos]
      omega
    · simpa using hd

theorem scanDigits_peek (st : LexerState) :
    ((peek (scanDigits st)).isDigit = false) :=
  scanDigitsGo_peek _ st (by omega)

theorem scanDigits_source (st : LexerState) :
    (scanDigits st).source = st.source := scanDigitsGo_source _ _

theorem scanDigits_pos (st : LexerState) :
    st.curPos ≤ (scanDigits st).curPos := scanDigitsGo_pos _ _

theorem scanDigits_progress {st : LexerState} (h : (peek st).isDigit = true) :
    st.curPos + 1 ≤ (scanDigits st).curPos := by
  unfold scanDigits scanDigitsGo
  rw [if_pos h]
  have h2 := scanDigitsGo_pos st.source.length (skipCurChar st)
  rw [skipCurChar_pos] at h2
  exact h2

theorem sliceL_self (s : List Char) (a : Nat) : sliceL s a a = [] := by
  simp [sliceL]

theorem sliceL_cons {s : List Char} {a b : Nat} (ha : a < s.length)
    (hab : a < b) : sliceL s a b = charAt s a :: sliceL s (a + 1) b := by
  unfold sliceL
  rw [List.drop_eq_getElem_cons ha,
    show b - a = (b - (a + 1)) + 1 from by omega, List.take_succ_cons,
    charAt_lt ha]

theorem sliceL_append {s : List Char} {a b c : Nat} (hab : a ≤ b)
    (hbc : b ≤ c) : sliceL s a c = sliceL s a b ++ sliceL s b c := by
  unfold sliceL
  rw [show c - a = (b - a) + (c - b) from by omega, List.take_add]
  congr 1
  rw [List.drop_drop, show a + (b - a) = b from by omega]

theorem scanDigitsGo_consumed : ∀ (f : Nat) (st : LexerState),
    (sliceL st.source (st.curPos + 1) ((scanDigitsGo f st).curPos + 1)).all
      Char.isDigit = true := by
  intro f
  induction f with
  | zero =>
    intro st
    show (sliceL st.source (st.curPos + 1) (st.curPos + 1)).all _ = true
    rw [sliceL_self]
    rfl
  | succ f ih =>
    intro st
    unfold scanDigitsGo
    split_ifs with hd
    · have hlt : st.curPos + 1 < st.source.length := charAt_digit_lt hd
      have hmono := scanDigitsGo_pos f (skipCurChar st)
      rw [skipCurChar_pos] at hmono
      rw [sliceL_cons hlt (by omega)]
      simp only [List.all_cons, Bool.and_eq_true]
      constructor
      · exact hd
      · have h2 := ih (skipCurChar st)
        rw [skipCurChar_source, skipCurChar_pos] at h2
        exact h2
    · rw [sliceL_self]
      rfl

theorem scanDigitsGo_slice : ∀ (f : Nat) (st : LexerState), WFlex st →
    st.curChar.isDigit = true →
    sliceL st.source st.curPos ((scanDigitsGo f st).curPos + 1) =
      st.curChar :: sliceL st.source (st.curPos + 1) ((scanDigitsGo f st).curPos + 1) := by
  intro f st hwf hd
  have hlt : st.curPos < st.source.length := by
    refine charAt_digit_lt (s := st.source) (i := st.curPos) ?_
    rw [← hwf]
    exact hd
  have hmono := scanDigitsGo_pos f st
  rw [sliceL_cons hlt (by omega), ← hwf]

theorem scanDigits_consumed (st : LexerState) :
    (sliceL st.source (st.curPos + 1) ((scanDigits st).curPos + 1)).all
      Char.isDigit = true := scanDigitsGo_consumed _ _

theorem scanDigits_slice (st : LexerState) (hwf : WFlex st)
    (hd : st.curChar.isDigit = true) :
    sliceL st.source st.curPos ((scanDigits st).curPos + 1) =
      st.curChar :: sliceL st.source (st.curPos + 1) ((scanDigits st).curPos + 1) :=
  scanDigitsGo_slice _ _ hwf hd

theorem takeWhile_all {p : Char → Bool} : ∀ {cs : List Char},
    cs.all p = true → cs.takeWhile p = cs := by
  intro cs
  induction cs with
  | nil => intro _; rfl
  | cons a l ih =>
    intro h
    simp only [List.all_cons, Bool.and_eq_true] at h
    simp [List.takeWhile_cons, h.1, ih h.2]

theorem isNumLit_digits {cs : List Char} (hne : cs ≠ [])
    (h : cs.all Char.isDigit = true) : isNumLit cs = true := by
  unfold isNumLit
  rw [takeWhile_all h]
  simp [hne, List.drop_length]

theorem takeWhile_append_not {p : Char → Bool} {B : List Char} {x : Char}
    (hx : p x = false) : ∀ A : List Char, A.all p = true →
    (A ++ x :: B).takeWhile p = A := by
  intro A
  induction A with
  | nil => intro _; simp [List.takeWhile_cons, hx]
  | cons a l ih =>
    intro hA
    simp only [List.all_cons, Bool.and_eq_true] at hA
    simp [List.takeWhile_cons, hA.1, ih hA.2]

theorem isNumLit_dot {A B : List Char} (hAne : A ≠ [])
    (hA : A.all Char.isDigit = true) (hBne : B ≠ [])
    (hB : B.all Char.isDigit = true) : isNumLit (A ++ '.' :: B) = true := by
  unfold isNumLit
  rw [takeWhile_append_not (by decide) A hA, List.drop_left]
  simp [hAne, hBne, hB]

/-- On a digit, `getTokenBody` runs exactly the numeric-literal branch. -/
theorem getTokenBody_digit (st : LexerState) (hd : st.curChar.isDigit = true) :
    getTokenBody st =
      (if peek (scanDigits st) = '.' then
        if !(peek (skipCurChar (scanDigits st))).isDigit then
          .error (lexErr "Illegal character in number.".toList)
        else
          .ok (⟨sliceL (scanDigits (skipCurChar (scanDigits st))).source st.curPos
              ((scanDigits (skipCurChar (scanDigits st))).curPos + 1), .NUMBER⟩,
            scanDigits (skipCurChar (scanDigits st)))
      else
        .ok (⟨sliceL (scanDigits st).source st.curPos ((scanDigits st).curPos + 1),
          .NUMBER⟩, scanDigits st)) := by
  have n1 : ¬ (st.curChar = '+') := isDigit_ne hd (by decide)
  have n2 : ¬ (st.curChar = '-') := isDigit_ne hd (by decide)
  have n3 : ¬ (st.curChar = '*') := isDigit_ne hd (by decide)
  have n4 : ¬ (st.curChar = '/') := isDigit_ne hd (by decide)
  have n5 : ¬ (st.curChar = '\n') := isDigit_ne hd (by decide)
  have n6 : ¬ (st.curChar = eofChar) := isDigit_ne hd (by decide)
  have n7 : ¬ (st.curChar = '=') := isDigit_ne hd (by decide)
  have n8 : ¬ (st.curChar = '>') := isDigit_ne hd (by decide)
  have n9 : ¬ (st.curChar = '<') := isDigit_ne hd (by decide)
  have n10 : ¬ (st.curChar = '!') := isDigit_ne hd (by decide)
  have n11 : ¬ (st.curChar = '"') := isDigit_ne hd (by decide)
  unfold getTokenBody
  rw [if_neg n1, if_neg n2, if_neg n3, if_neg n4, if_neg n5, if_neg n6,
    if_neg n7, if_neg n8, if_neg n9, if_neg n10, if_neg n11, if_pos hd]

theorem ok_pair_inv {A : Token × LexerState} {t : Token} {st1 : LexerState}
    (h : (.ok A : Except (List Char) (Token × LexerState)) = .ok (t, st1)) :
    t = A.1 ∧ st1 = A.2 := by
  injection h with h2
  exact ⟨(congrArg Prod.fst h2).symm, (congrArg Prod.snd h2).symm⟩

theorem getToken_digit_red (st : LexerState) (hd : st.curChar.isDigit = true) :
    getToken st =
      ebind (getTokenBody st) (fun r => .ok (r.1, skipCurChar r.2)) := by
  unfold getToken
  rw [skipWhitespace_nop (ws_of_digit hd),
    skipComment_nop (isDigit_ne hd (by decide))]

/-- C5 (error half): if the optional decimal point is not followed by a
digit, the lexer aborts with the illegal-character-in-number error. -/
theorem number_token_error_aux (st : LexerState) (m : List Char)
    (hd : st.curChar.isDigit = true) (h : getToken st = .error m) :
    m = lexErr "Illegal character in number.".toList := by
  rw [getToken_digit_red st hd, getTokenBody_digit st hd] at h
  by_cases hdot : peek (scanDigits st) = '.'
  · rw [if_pos hdot] at h
    by_cases hd2 : (peek (skipCurChar (scanDigits st))).isDigit = true
    · rw [if_neg (by simp [hd2]), ebind_ok] at h
      cases h
    · have hx : (peek (skipCurChar (scanDigits st))).isDigit = false := by
        simpa using hd2
      rw [if_pos (by rw [hx]; rfl), ebind_error] at h
      injection h with h2
      exact h2.symm
  · rw [if_neg hdot, ebind_ok] at h
    cases h

/-- C5 (success half): a token lexed from a digit is a NUMBER whose text
is the maximal digit run (optionally one decimal point plus a nonempty
digit run), taken verbatim from the source, and the character after it
is not a digit. -/
theorem number_token_ok_aux (st : LexerState) (t : Token) (st1 : LexerState)
    (hwf : WFlex st) (hd : st.curChar.isDigit = true)
    (h : getToken st = .ok (t, st1)) :
    t.kind = .NUMBER ∧ isNumLit t.text = true ∧
    t.text = sliceL st.source st.curPos st1.curPos ∧
    st1.curChar.isDigit = false ∧ st1.source = st.source := by
  rw [getToken_digit_red st hd, getTokenBody_digit st hd] at h
  have hA : sliceL st.source st.curPos ((scanDigits st).curPos + 1) =
      st.curChar :: sliceL st.source (st.curPos + 1) ((scanDigits st).curPos + 1) :=
    scanDigits_slice st hwf hd
  have hAall : (sliceL st.source st.curPos ((scanDigits st).curPos + 1)).all
      Char.isDigit = true := by
    rw [hA]
    simp only [List.all_cons, Bool.and_eq_true]
    exact ⟨hd, scanDigits_consumed st⟩
  have hAne : sliceL st.source st.curPos ((scanDigits st).curPos + 1) ≠ [] := by
    rw [hA]
    exact List.cons_ne_nil _ _
  by_cases hdot : peek (scanDigits st) = '.'
  · rw [if_pos hdot] at h
    by_cases hd2 : (peek (skipCurChar (scanDigits st))).isDigit = true
    · rw [if_neg (by simp [hd2]), ebind_ok] at h
      obtain ⟨ht, hst⟩ := ok_pair_inv h
      subst ht
      subst hst
      have hs3 : (scanDigits (skipCurChar (scanDigits st))).source = st.source := by
        rw [scanDigits_source, skipCurChar_source, scanDigits_source]
      have hp1 : st.curPos ≤ (scanDigits st).curPos := scanDigits_pos st
      have hp2 : (skipCurChar (scanDigits st)).curPos = (scanDigits st).curPos + 1 :=
        skipCurChar_pos _
      have hp3 : (skipCurChar (scanDigits st)).curPos + 1 ≤
          (scanDigits (skipCurChar (scanDigits st))).curPos :=
        scanDigits_progress hd2
      have hdotchar : charAt st.source ((scanDigits st).curPos + 1) = '.' := by
        have h0 : charAt (scanDigits st).source ((scanDigits st).curPos + 1) = '.' := hdot
        rw [scanDigits_source] at h0
        exact h0
      have hlt1 : (scanDigits st).curPos + 1 < st.source.length :=
        charAt_lt_of_ne (by rw [hdotchar]; decide)
      have hd2char : (charAt st.source ((scanDigits st).curPos + 1 + 1)).isDigit = true := by
        have h0 : (charAt (skipCurChar (scanDigits st)).source
            ((skipCurChar (scanDigits st)).curPos + 1)).isDigit = true := hd2
        rw [skipCurChar_source, scanDigits_source] at h0
        exact h0
      have hlt2 : (scanDigits st).curPos + 1 + 1 < st.source.length :=
        charAt_digit_lt hd2char
      have hBall : (sliceL st.source ((scanDigits st).curPos + 1 + 1)
          ((scanDigits (skipCurChar (scanDigits st))).curPos + 1)).all
          Char.isDigit = true := by
        have h0 := scanDigits_consumed (skipCurChar (scanDigits st))
        rw [skipCurChar_source, scanDigits_source] at h0
        exact h0
      have hBne : sliceL st.source ((scanDigits st).curPos + 1 + 1)
          ((scanDigits (skipCurChar (scanDigits st))).curPos + 1) ≠ [] := by
        rw [sliceL_cons hlt2 (by omega)]
        exact List.cons_ne_nil _ _
      have htext : sliceL st.source st.curPos
          ((scanDigits (skipCurChar (scanDigits st))).curPos + 1) =
          sliceL st.source st.curPos ((scanDigits st).curPos + 1) ++
            '.' :: sliceL st.source ((scanDigits st).curPos + 1 + 1)
              ((scanDigits (skipCurChar (scanDigits st))).curPos + 1) := by
        rw [sliceL_append (show st.curPos ≤ (scanDigits st).curPos + 1 by omega)
          (show (scanDigits st).curPos + 1 ≤
            (scanDigits (skipCurChar (scanDigits st))).curPos + 1 by omega)]
        rw [sliceL_cons hlt1 (by omega), hdotchar]
      refine ⟨rfl, ?_, ?_, ?_, ?_⟩
      · show isNumLit (sliceL (scanDigits (skipCurChar (scanDigits st))).source
          st.curPos ((scanDigits (skipCurChar (scanDigits st))).curPos + 1)) = true
        rw [hs3, htext]
        exact isNumLit_dot hAne hAall hBne hBall
      · show sliceL (scanDigits (skipCurChar (scanDigits st))).source st.curPos
          ((scanDigits (skipCurChar (scanDigits st))).curPos + 1) =
          sliceL st.source st.curPos ((skipCurChar (scanDigits (skipCurChar
            (scanDigits st)))).curPos)
        rw [hs3]
        rfl
      · exact scanDigits_peek (skipCurChar (scanDigits st))
      · show (skipCurChar (scanDigits (skipCurChar (scanDigits st)))).source = st.source
        rw [skipCurChar_source]
        exact hs3
    · have hx : (peek (skipCurChar (scanDigits st))).isDigit = false := by
        simpa using hd2
      rw [if_pos (by rw [hx]; rfl), ebind_error] at h
      cases h
  · rw [if_neg hdot, ebind_ok] at h
    obtain ⟨ht, hst⟩ := ok_pair_inv h
    subst ht
    subst hst
    have hs1 : (scanDigits st).source = st.source := scanDigits_source st
    refine ⟨rfl, ?_, ?_, ?_, ?_⟩
    · show isNumLit (sliceL (scanDigits st).source st.curPos
        ((scanDigits st).curPos + 1)) = true
      rw [hs1]
      exact isNumLit_digits hAne hAall
    · show sliceL (scanDigits st).source st.curPos ((scanDigits st).curPos + 1) =
        sliceL st.source st.curPos ((skipCurChar (scanDigits st)).curPos)
      rw [hs1]
      rfl
    · exact scanDigits_peek st
    · show (skipCurChar (scanDigits st)).source = st.source
      rw [skipCurChar_source]
      exact hs1

theorem getTokenBody_pos {st : LexerState} {r : Token × LexerState}
    (h : getTokenBody st = .ok r) : st.curPos ≤ r.2.curPos := by
  unfold getTokenBody at h
  by_cases c1 : st.curChar = '+'
  · rw [if_pos c1] at h; injection h with h2; subst h2; exact Nat.le_refl _
  rw [if_neg c1] at h
  by_cases c2 : st.curChar = '-'
  · rw [if_pos c2] at h; injection h with h2; subst h2; exact Nat.le_refl _
  rw [if_neg c2] at h
  by_cases c3 : st.curChar = '*'
  · rw [if_pos c3] at h; injection h with h2; subst h2; exact Nat.le_refl _
  rw [if_neg c3] at h
  by_cases c4 : st.curChar = '/'
  · rw [if_pos c4] at h; injection h with h2; subst h2; exact Nat.le_refl _
  rw [if_neg c4] at h
  by_cases c5 : st.curChar = '\n'
  · rw [if_pos c5] at h; injection h with h2; subst h2; exact Nat.le_refl _
  rw [if_neg c5] at h
  by_cases c6 : st.curChar = eofChar
  · rw [if_pos c6] at h; injection h with h2; subst h2; exact Nat.le_refl _
  rw [if_neg c6] at h
  by_cases c7 : st.curChar = '='
  · rw [if_pos c7] at h
    by_cases cp : peek st = '='
    · rw [if_pos cp] at h; injection h with h2; subst h2; exact Nat.le_succ _
    · rw [if_neg cp] at h; injection h with h2; subst h2; exact Nat.le_refl _
  rw [if_neg c7] at h
  by_cases c8 : st.curChar = '>'
  · rw [if_pos c8] at h
    by_cases cp : peek st = '='
    · rw [if_pos cp] at h; injection h with h2; subst h2; exact Nat.le_succ _
    · rw [if_neg cp] at h; injection h with h2; subst h2; exact Nat.le_refl _
  rw [if_neg c8] at h
  by_cases c9 : st.curChar = '<'
  · rw [if_pos c9] at h
    by_cases cp : peek st = '='
    · rw [if_pos cp] at h; injection h with h2; subst h2; exact Nat.le_succ _
    · rw [if_neg cp] at h; injection h with h2; subst h2; exact Nat.le_refl _
  rw [if_neg c9] at h
  by_cases c10 : st.curChar = '!'
  · rw [if_pos c10] at h
    by_cases cp : peek st = '='
    · rw [if_pos cp] at h; injection h with h2; subst h2; exact Nat.le_succ _
    · rw [if_neg cp] at h; cases h
  rw [if_neg c10] at h
  by_cases c11 : st.curChar = '"'
  · rw [if_pos c11] at h
    obtain ⟨stE, hsE, hok⟩ := except_bind_ok _ _ _ h
    injection hok with h2
    subst h2
    have h3 := (scanStringGo_ok _ hsE).1
    rw [skipCurChar_pos] at h3
    show st.curPos ≤ stE.curPos
    omega
  rw [if_neg c11] at h
  by_cases c12 : st.curChar.isDigit = true
  · rw [if_pos c12] at h
    by_cases hdot : peek (scanDigits st) = '.'
    · rw [if_pos hdot] at h
      by_cases hd2 : (peek (skipCurChar (scanDigits st))).isDigit = true
      · rw [if_neg (by simp [hd2])] at h
        injection h with h2
        subst h2
        have hp1 := scanDigits_pos st
        have hp2 : (skipCurChar (scanDigits st)).curPos = (scanDigits st).curPos + 1 :=
          skipCurChar_pos _
        have hp3 := scanDigits_pos (skipCurChar (scanDigits st))
        show st.curPos ≤ (scanDigits (skipCurChar (scanDigits st))).curPos
        omega
      · have hx : (peek (skipCurChar (scanDigits st))).isDigit = false := by
          simpa using hd2
        rw [if_pos (by rw [hx]; rfl)] at h
        cases h
    · rw [if_neg hdot] at h
      injection h with h2
      subst h2
      exact scanDigits_pos st
  · rw [if_neg c12] at h
    by_cases c13 : st.curChar.isAlpha = true
    · rw [if_pos c13] at h
      rcases hmk : mapTextToKeywordType (sliceL (scanAlnum st).source st.curPos
          ((scanAlnum st).curPos + 1)) with _ | k
      · rw [hmk] at h
        injection h with h2
        subst h2
        exact scanAlnumGo_pos _ _
      · rw [hmk] at h
        injection h with h2
        subst h2
        exact scanAlnumGo_pos _ _
    · rw [if_neg c13] at h
      cases h

/-- C8: `peek` computes the character at `curPos + 1` with the
end-of-input sentinel past the buffer, without touching the scanner
state (it is a pure function of the state); and every successful
`getToken` call strictly advances the scan position — it never
decreases. -/
theorem peek_pure_and_pos_monotone :
    (∀ st : LexerState, peek st = st.source.getD (st.curPos + 1) eofChar)
    ∧ ∀ (st : LexerState) (t : Token) (st1 : LexerState),
        getToken st = .ok (t, st1) → st.curPos < st1.curPos := by
  refine ⟨fun st => rfl, ?_⟩
  intro st t st1 h
  unfold getToken at h
  obtain ⟨r, hbody, hok⟩ := except_bind_ok _ _ _ h
  injection hok with h2
  have hs : skipCurChar r.2 = st1 := congrArg Prod.snd h2
  have h1 := skipWhitespace_pos st
  have h2p := skipComment_pos (skipWhitespace st)
  have h3 := getTokenBody_pos hbody
  have h4 : (skipCurChar r.2).curPos = r.2.curPos + 1 := skipCurChar_pos _
  rw [← hs]
  omega

/-- Witness: lexing `+` from position 0 strictly advances the position. -/
theorem peek_pure_and_pos_monotone_witness :
    c8st.curPos < (okAux (getToken c8st) (eofToken, c8st)).2.curPos :=
  peek_pure_and_pos_monotone.2 c8st
    (okAux (getToken c8st) (eofToken, c8st)).1
    (okAux (getToken c8st) (eofToken, c8st)).2 rfl

theorem getTokenBody_eof {st : LexerState} {r : Token × LexerState}
    (h : getTokenBody st = .ok r) (hk : r.1.kind = .EOF) :
    st.curChar = eofChar ∧ r.2 = st := by
  unfold getTokenBody at h
  by_cases c1 : st.curChar = '+'
  · rw [if_pos c1] at h; injection h with h2; subst h2
    simp at hk
  rw [if_neg c1] at h
  by_cases c2 : st.curChar = '-'
  · rw [if_pos c2] at h; injection h with h2; subst h2
    simp at hk
  rw [if_neg c2] at h
  by_cases c3 : st.curChar = '*'
  · rw [if_pos c3] at h; injection h with h2; subst h2
    simp at hk
  rw [if_neg c3] at h
  by_cases c4 : st.curChar = '/'
  · rw [if_pos c4] at h; injection h with h2; subst h2
    simp at hk
  rw [if_neg c4] at h
  by_cases c5 : st.curChar = '\n'
  · rw [if_pos c5] at h; injection h with h2; subst h2
    simp at hk
  rw [if_neg c5] at h
  by_cases c6 : st.curChar = eofChar
  · rw [if_pos c6] at h; injection h with h2; subst h2
    exact ⟨c6, rfl⟩
  rw [if_neg c6] at h
  by_cases c7 : st.curChar = '='
  · rw [if_pos c7] at h
    by_cases cp : peek st = '='
    · rw [if_pos cp] at h; injection h with h2; subst h2
      simp at hk
    · rw [if_neg cp] at h; injection h with h2; subst h2
      simp at hk
  rw [if_neg c7] at h
  by_cases c8 : st.curChar = '>'
  · rw [if_pos c8] at h
    by_cases cp : peek st = '='
    · rw [if_pos cp] at h; injection h with h2; subst h2
      simp at hk
    · rw [if_neg cp] at h; injection h with h2; subst h2
      simp at hk
  rw [if_neg c8] at h
  by_cases c9 : st.curChar = '<'
  · rw [if_pos c9] at h
    by_cases cp : peek st = '='
    · rw [if_pos cp] at h; injection h with h2; subst h2
      simp at hk
    · rw [if_neg cp] at h; injection h with h2; subst h2
      simp at hk
  rw [if_neg c9] at h
  by_cases c10 : st.curChar = '!'
  · rw [if_pos c10] at h
    by_cases cp : peek st = '='
    · rw [if_pos cp] at h; injection h with h2; subst h2
      simp at hk
    · rw [if_neg cp] at h; cases h
  rw [if_neg c10] at h
  by_cases c11 : st.curChar = '"'
  · rw [if_pos c11] at h
    obtain ⟨stE, hsE, hok⟩ := except_bind_ok _ _ _ h
    injection hok with h2
    subst h2
    simp at hk
  rw [if_neg c11] at h
  by_cases c12 : st.curChar.isDigit = true
  · rw [if_pos c12] at h
    by_cases hdot : peek (scanDigits st) = '.'
    · rw [if_pos hdot] at h
      by_cases hd2 : (peek (skipCurChar (scanDigits st))).isDigit = true
      · rw [if_neg (by simp [hd2])] at h
        injection h with h2
        subst h2
        simp at hk
      · have hx : (peek (skipCurChar (scanDigits st))).isDigit = false := by
          simpa using hd2
        rw [if_pos (by rw [hx]; rfl)] at h
        cases h
    · rw [if_neg hdot] at h
      injection h with h2
      subst h2
      simp at hk
  · rw [if_neg c12] at h
    by_cases c13 : st.curChar.isAlpha = true
    · rw [if_pos c13] at h
      rcases hmk : mapTextToKeywordType (sliceL (scanAlnum st).source st.curPos
          ((scanAlnum st).curPos + 1)) with _ | k
      · rw [hmk] at h
        injection h with h2
        subst h2
        simp at hk
      · rw [hmk] at h
        injection h with h2
        subst h2
        have hp := List.find?_some
          (show TokenType.members.find? (fun kind =>
            decide (kind.name = sliceL (scanAlnum st).source st.curPos
              ((scanAlnum st).curPos + 1)) && decide (100 ≤ kind.value) &&
            decide (kind.value < 200)) = some k from hmk)
        simp only [Bool.and_eq_true, decide_eq_true_eq] at hp
        have hkk : k = TokenType.EOF := hk
        subst hkk
        simp [TokenType.value] at hp
    · rw [if_neg c13] at h
      cases h

/-- C9 counterexample: on a source containing an embedded `'\0'`, the
very first token is an EOF-kind token, yet the next `getToken` call
returns an IDENT token — the token stream yields a non-EOF token after
the first EOF token, refuting the claim as stated. -/
theorem eof_not_absorbing_counterexample :
    isOkE (getToken c9lex) = true ∧
    (okAux (getToken c9lex) (eofToken, c9lex)).1.kind = .EOF ∧
    isOkE (getToken (okAux (getToken c9lex) (eofToken, c9lex)).2) = true ∧
    (okAux (getToken (okAux (getToken c9lex) (eofToken, c9lex)).2)
      (eofToken, c9lex)).1.kind = .IDENT ∧
    TokenType.IDENT ≠ TokenType.EOF := by
  decide

/-- C9 (amended): once the scan position is at or past the end of the
buffer the current character is the sentinel and `getToken` returns an
EOF token, leaving the position past the end again (so every subsequent
call also returns EOF); and provided the source text does not itself
contain the `'\0'` sentinel character, any EOF-kind token puts the
position past the end — hence the stream never yields a non-EOF token
after the first EOF token for sentinel-free sources. -/
theorem eof_absorbing_amended :
    (∀ st : LexerState, WFlex st → st.source.length ≤ st.curPos →
      getToken st = .ok (⟨[eofChar], .EOF⟩, skipCurChar st) ∧
        st.source.length ≤ (skipCurChar st).curPos ∧ WFlex (skipCurChar st))
    ∧ (∀ (st : LexerState) (t : Token) (st1 : LexerState), WFlex st →
        eofChar ∉ st.source → getToken st = .ok (t, st1) → t.kind = .EOF →
        st.source.length ≤ st1.curPos ∧ st1.source = st.source ∧ WFlex st1) := by
  constructor
  · intro st hwf hge
    have hc : st.curChar = eofChar := by
      rw [hwf]
      exact charAt_ge hge
    refine ⟨?_, by rw [skipCurChar_pos]; omega, wf_skipCurChar st⟩
    rw [show getToken st = ebind (getTokenBody (skipComment (skipWhitespace st)))
        (fun r => .ok (r.1, skipCurChar r.2)) from rfl]
    rw [skipWhitespace_nop (by rw [hc]; decide), skipComment_nop (by rw [hc]; decide)]
    unfold getTokenBody
    rw [if_neg (by rw [hc]; decide), if_neg (by rw [hc]; decide),
      if_neg (by rw [hc]; decide), if_neg (by rw [hc]; decide),
      if_neg (by rw [hc]; decide), if_pos hc, ebind_ok, hc]
  · intro st t st1 hwf hnm h hok
    unfold getToken at h
    obtain ⟨r, hbody, hok2⟩ := except_bind_ok _ _ _ h
    injection hok2 with h2
    have hT : r.1 = t := congrArg Prod.fst h2
    have hS : skipCurChar r.2 = st1 := congrArg Prod.snd h2
    have hwfA : WFlex (skipComment (skipWhitespace st)) :=
      wf_skipComment _ (wf_skipWhitespace _ hwf)
    have hsrcA : (skipComment (skipWhitespace st)).source = st.source := by
      rw [skipComment_source, skipWhitespace_source]
    have hposA : st.curPos ≤ (skipComment (skipWhitespace st)).curPos :=
      le_trans (skipWhitespace_pos _) (skipComment_pos _)
    obtain ⟨hc, hst⟩ := getTokenBody_eof hbody (by rw [hT]; exact hok)
    have hge : (skipComment (skipWhitespace st)).source.length ≤
        (skipComment (skipWhitespace st)).curPos := by
      by_contra hlt
      push_neg at hlt
      have hmem : eofChar ∈ (skipComment (skipWhitespace st)).source := by
        rw [← hc, hwfA, charAt_lt hlt]
        exact List.getElem_mem _
      rw [hsrcA] at hmem
      exact hnm hmem
    rw [hsrcA] at hge
    refine ⟨?_, ?_, ?_⟩
    · rw [← hS, skipCurChar_pos, hst]
      omega
    · rw [← hS, skipCurChar_source, hst]
      exact hsrcA
    · rw [← hS]
      exact wf_skipCurChar _

/-- Witness: at a concrete state past the end of the buffer, `getToken`
returns the EOF token and the position stays past the end. -/
theorem eof_absorbing_amended_witness :
    getToken c9pastEnd = .ok (⟨[eofChar], .EOF⟩, skipCurChar c9pastEnd) ∧
      c9pastEnd.source.length ≤ (skipCurChar c9pastEnd).curPos ∧
      WFlex (skipCurChar c9pastEnd) :=
  eof_absorbing_amended.1 c9pastEnd rfl (by decide)

/-- C5: from a digit, the lexer produces a NUMBER token whose text is
the maximal run of consecutive digits (optionally one decimal point and
at least one further digit, text taken verbatim from the source, with
the following character not a digit), or aborts with the
illegal-character-in-number error when a consumed decimal point is not
followed by a digit — as on the input `LET x = 5.`, which never produces
a token. -/
theorem number_token_spec :
    (∀ (st : LexerState) (m : List Char), st.curChar.isDigit = true →
      getToken st = .error m → m = lexErr "Illegal character in number.".toList)
    ∧ (∀ (st : LexerState) (t : Token) (st1 : LexerState), WFlex st →
        st.curChar.isDigit = true → getToken st = .ok (t, st1) →
        t.kind = .NUMBER ∧ isNumLit t.text = true ∧
        t.text = sliceL st.source st.curPos st1.curPos ∧
        st1.curChar.isDigit = false ∧ st1.source = st.source)
    ∧ tokenize "LET x = 5.".toList =
        .error (lexErr "Illegal character in number.".toList) :=
  ⟨number_token_error_aux, number_token_ok_aux, by decide⟩

/-- Witness: lexing `12x` from the start yields the NUMBER token `12`,
verbatim from the source, with the following character not a digit. -/
theorem number_token_spec_witness :
    c5res.1.kind = .NUMBER ∧ isNumLit c5res.1.text = true ∧
    c5res.1.text = sliceL c5st.source c5st.curPos c5res.2.curPos ∧
    c5res.2.curChar.isDigit = false ∧ c5res.2.source = c5st.source :=
  number_token_spec.2.1 c5st c5res.1 c5res.2 rfl (by decide) rfl
